import Mathlib

/-!
Shallow embedding of the rolling 30-minute traffic-history store of
`src/app.py` (subsections 6E and 6F, and the chart-source selection of
step 7.5).

Modelling conventions:
* Timestamps (`datetime` values produced by `datetime.now()`) are modelled
  as integers counting minutes; `timedelta(minutes=30)` becomes the
  integer 30.  Only comparisons and a fixed subtraction are performed on
  timestamps in the source, so any linearly ordered additive model is
  faithful; the claims speak in minutes.
* Speeds (Python floats) are modelled as integers; the source only
  appends, sums and stores them, and every claim uses integer values.
* `st.session_state.device_traffic_history` is a Python dict mapping a
  device name to a dict of three parallel lists; it is modelled as an
  association list with first-match lookup and in-place update, new keys
  appended at the end (Python dicts preserve insertion order).
* `st.session_state.traffic_history` (the "All Devices" aggregate) is a
  separate session variable, not a key of that dict, and is modelled as a
  separate field of the `Store`.
-/

namespace RollingWindow

/-- One key's history: the dict
`{'timestamps': [...], 'download_speeds': [...], 'upload_speeds': [...]}`
of `src/app.py` lines 918-922 / 968-972. -/
structure TimeSeries where
  timestamps : List Int
  download_speeds : List Int
  upload_speeds : List Int
deriving DecidableEq

/-- The freshly initialized history: three empty lists
(`src/app.py` lines 918-922). -/
def emptyTS : TimeSeries := ⟨[], [], []⟩

/-- `timedelta(minutes=30)` from `src/app.py` lines 938 and 988,
in minutes. -/
def horizon : Int := 30

/-- The three `.append` calls of `src/app.py` lines 926-928 (and 982-984):
push one sample onto the end of the three parallel lists. -/
def recordSample (ts : TimeSeries) (t d u : Int) : TimeSeries :=
  ⟨ts.timestamps ++ [t], ts.download_speeds ++ [d], ts.upload_speeds ++ [u]⟩

/-- `valid_indices = [i for i, t in enumerate(timestamps) if t >= cutoff_time]`
(`src/app.py` line 946 / 989): the indices whose timestamp is still within
the window. -/
def validIndices (timestamps : List Int) (cutoff : Int) : List Nat :=
  (List.range timestamps.length).filter (fun i => cutoff ≤ timestamps.getD i 0)

/-- `[xs[i] for i in valid_indices]` (`src/app.py` lines 953-955 /
990-992).  Indices produced by `validIndices` are always in range, so the
default value is never read. -/
def rebuildAt (xs : List Int) (idxs : List Nat) : List Int :=
  idxs.map (fun i => xs.getD i 0)

/-- The garbage-collection pass of `src/app.py` lines 938-955 (and
988-992): compute `cutoff_time = now - 30 minutes`, keep exactly the
indices whose timestamp is `>= cutoff_time`, and rebuild all three lists
from that one index set. -/
def evict (ts : TimeSeries) (now : Int) : TimeSeries :=
  let cutoff := now - horizon
  let valid := validIndices ts.timestamps cutoff
  ⟨rebuildAt ts.timestamps valid,
   rebuildAt ts.download_speeds valid,
   rebuildAt ts.upload_speeds valid⟩

/-- Dict lookup (`m[k]` / `k in m`): first entry whose key matches. -/
def getTS : List (String × TimeSeries) → String → Option TimeSeries
  | [], _ => none
  | p :: m, k => if p.1 = k then some p.2 else getTS m k

/-- Dict write (`m[k] = v`): replace the entry if the key is present,
otherwise append at the end (Python dicts keep insertion order). -/
def setTS : List (String × TimeSeries) → String → TimeSeries → List (String × TimeSeries)
  | [], k, v => [(k, v)]
  | p :: m, k, v => if p.1 = k then (k, v) :: m else p :: setTS m k v

/-- `k in m` for the history dict. -/
def hasKey (m : List (String × TimeSeries)) (k : String) : Bool :=
  (getTS m k).isSome

/-- `src/app.py` lines 916-928: if the device name is unseen, install the
empty history, then append the current sample to that device's three
lists. -/
def recordKey (m : List (String × TimeSeries)) (name : String) (t d u : Int) :
    List (String × TimeSeries) :=
  let m0 := if hasKey m name then m else setTS m name emptyTS
  let ts := (getTS m0 name).getD emptyTS
  setTS m0 name (recordSample ts t d u)

/-- `src/app.py` lines 938-955: run the garbage-collection pass on one
device's history and store it back. -/
def evictKey (m : List (String × TimeSeries)) (name : String) (now : Int) :
    List (String × TimeSeries) :=
  setTS m name (evict ((getTS m name).getD emptyTS) now)

/-- One row of the generator's DataFrame `df`: a device name with its
current download and upload speed. -/
structure Device where
  name : String
  download : Int
  upload : Int
deriving DecidableEq

/-- The whole session state touched by the history code: the per-device
dict (6E) and the separate "All Devices" aggregate (6F). -/
structure Store where
  device_traffic_history : List (String × TimeSeries)
  traffic_history : TimeSeries
deriving DecidableEq

/-- Session state right after initialization (`src/app.py` lines 892-894
and 966-972): empty dict, empty aggregate series. -/
def initialStore : Store := ⟨[], emptyTS⟩

/-- The body of `for _, device in df.iterrows()` (`src/app.py` lines
908-955): append the device's sample, then trim that same device's
history. -/
def deviceStep (now : Int) (m : List (String × TimeSeries)) (dev : Device) :
    List (String × TimeSeries) :=
  evictKey (recordKey m dev.name now dev.download dev.upload) dev.name now

/-- The full per-device loop of subsection 6E over the tick's snapshot. -/
def tickDevices (m : List (String × TimeSeries)) (now : Int) (snap : List Device) :
    List (String × TimeSeries) :=
  snap.foldl (deviceStep now) m

/-- `df['current_download_speed'].sum()` (`src/app.py` line 976). -/
def sumDownload (snap : List Device) : Int := (snap.map (·.download)).sum

/-- `df['current_upload_speed'].sum()` (`src/app.py` line 977). -/
def sumUpload (snap : List Device) : Int := (snap.map (·.upload)).sum

/-- One refresh tick over the history state (`src/app.py` lines 902-992):
capture `current_time` once, run the per-device append+trim loop over the
snapshot, then append the summed sample to the aggregate series and trim
it with the same cutoff. -/
def tick (s : Store) (now : Int) (snap : List Device) : Store :=
  { device_traffic_history := tickDevices s.device_traffic_history now snap,
    traffic_history :=
      evict (recordSample s.traffic_history now (sumDownload snap) (sumUpload snap)) now }

/-- A run of consecutive ticks, each with its captured time and its
snapshot. -/
def runTicks (s : Store) (steps : List (Int × List Device)) : Store :=
  steps.foldl (fun acc st => tick acc st.1 st.2) s

/-- The chart-source selection of `src/app.py` lines 1325-1338: a specific
device that has history shows its own series; "All Devices", or a device
absent from the dict, falls back to the aggregate series. -/
def readKey (s : Store) (selected : String) : TimeSeries :=
  if selected ≠ "All Devices" ∧ hasKey s.device_traffic_history selected = true then
    (getTS s.device_traffic_history selected).getD emptyTS
  else s.traffic_history

/-- `src/app.py` lines 1343/1516-1520: the "Collecting data..."
placeholder is shown exactly when the selected history has no
timestamps. -/
def showsPlaceholder (s : Store) (selected : String) : Bool :=
  (readKey s selected).timestamps.length = 0

/-- The three parallel lists fused into one list of samples; used to state
what eviction does to samples as wholes. -/
def samples (ts : TimeSeries) : List (Int × Int × Int) :=
  ts.timestamps.zip (ts.download_speeds.zip ts.upload_speeds)

/-- Parallel-length invariant of one series. -/
def wfTS (ts : TimeSeries) : Prop :=
  ts.timestamps.length = ts.download_speeds.length ∧
    ts.timestamps.length = ts.upload_speeds.length

/-- Every series stored in the dict satisfies the parallel-length
invariant. -/
def wfDict (m : List (String × TimeSeries)) : Prop :=
  ∀ name ts, getTS m name = some ts → wfTS ts

/-- The whole session state satisfies the parallel-length invariant. -/
def wfStore (s : Store) : Prop :=
  wfDict s.device_traffic_history ∧ wfTS s.traffic_history

theorem length_rebuildAt (xs : List Int) (idxs : List Nat) :
    (rebuildAt xs idxs).length = idxs.length :=
  List.length_map idxs _

theorem validIndices_cons (x : Int) (xs : List Int) (c : Int) :
    validIndices (x :: xs) c
      = (if c ≤ x then [0] else []) ++ (validIndices xs c).map Nat.succ := by
  unfold validIndices
  rw [List.length_cons, List.range_succ_eq_map, List.filter_cons, List.filter_map]
  have hcomp : ((fun i => decide (c ≤ (x :: xs).getD i 0)) ∘ Nat.succ)
      = fun i => decide (c ≤ xs.getD i 0) := by
    funext i
    simp [Function.comp, List.getD_cons_succ]
  rw [hcomp]
  by_cases h : c ≤ x
  · simp [h]
  · simp [h]

theorem mem_validIndices_lt (timestamps : List Int) (c : Int) (i : Nat)
    (h : i ∈ validIndices timestamps c) : i < timestamps.length := by
  unfold validIndices at h
  exact List.mem_range.mp (List.mem_filter.mp h).1

theorem rebuildAt_validIndices (xs : List Int) (c : Int) :
    rebuildAt xs (validIndices xs c) = xs.filter (fun t => decide (c ≤ t)) := by
  induction xs with
  | nil => rfl
  | cons x xs ih =>
    rw [validIndices_cons]
    unfold rebuildAt at ih ⊢
    rw [List.map_append, List.map_map]
    have hcomp : ((fun i => (x :: xs).getD i 0) ∘ Nat.succ) = fun i => xs.getD i 0 := by
      funext i
      simp [Function.comp]
    rw [hcomp, List.filter_cons]
    by_cases h : c ≤ x
    · rw [if_pos h, if_pos (decide_eq_true h), ih]
      simp only [List.map_cons, List.map_nil, List.getD_cons_zero, List.singleton_append]
    · rw [if_neg h, if_neg (by simp [h]), ih]
      simp only [List.map_nil, List.nil_append]

theorem map_validIndices_zip (c : Int) :
    ∀ (xs : List Int) (ys : List (Int × Int)), xs.length = ys.length →
      (validIndices xs c).map (fun i => (xs.getD i 0, ys.getD i (0, 0)))
        = (xs.zip ys).filter (fun q => decide (c ≤ q.1))
  | [], [], _ => rfl
  | [], y :: ys, h => by simp at h
  | x :: xs, [], h => by simp at h
  | x :: xs, y :: ys, h => by
    have hlen : xs.length = ys.length := by simpa using h
    rw [validIndices_cons, List.map_append, List.map_map]
    have hcomp : ((fun i => ((x :: xs).getD i 0, (y :: ys).getD i (0, 0))) ∘ Nat.succ)
        = fun i => (xs.getD i 0, ys.getD i (0, 0)) := by
      funext i
      simp [Function.comp]
    rw [hcomp, map_validIndices_zip c xs ys hlen, List.zip_cons_cons, List.filter_cons]
    by_cases h' : c ≤ x
    · simp [h']
    · simp [h']

theorem samples_evict_eq (ts : TimeSeries) (now : Int) (h : wfTS ts) :
    samples (evict ts now)
      = (samples ts).filter (fun q => decide (now - horizon ≤ q.1)) := by
  obtain ⟨h1, h2⟩ := h
  unfold samples evict rebuildAt
  rw [List.zip_map', List.zip_map']
  have hlen : ts.timestamps.length = (ts.download_speeds.zip ts.upload_speeds).length := by
    rw [List.length_zip, ← h1, ← h2, min_self]
  rw [← map_validIndices_zip (now - horizon) ts.timestamps
        (ts.download_speeds.zip ts.upload_speeds) hlen]
  apply List.map_congr_left
  intro i hi
  have hit := mem_validIndices_lt ts.timestamps (now - horizon) i hi
  have hiz : i < (ts.download_speeds.zip ts.upload_speeds).length := hlen ▸ hit
  have hid : i < ts.download_speeds.length := by
    rw [← h1]
    exact hit
  have hiu : i < ts.upload_speeds.length := by
    rw [← h2]
    exact hit
  rw [List.getD_eq_getElem _ _ hiz, List.getD_eq_getElem _ _ hid,
    List.getD_eq_getElem _ _ hiu, List.getElem_zip]

theorem evict_timestamps_eq (ts : TimeSeries) (now : Int) :
    (evict ts now).timestamps
      = ts.timestamps.filter (fun t => decide (now - horizon ≤ t)) :=
  rebuildAt_validIndices ts.timestamps (now - horizon)

theorem wfTS_evict (ts : TimeSeries) (now : Int) : wfTS (evict ts now) := by
  unfold wfTS evict rebuildAt
  simp

theorem wfTS_record (ts : TimeSeries) (t d u : Int) (h : wfTS ts) :
    wfTS (recordSample ts t d u) := by
  obtain ⟨h1, h2⟩ := h
  unfold wfTS recordSample
  constructor
  · simp [h1]
  · simp [h2]

theorem samples_record_eq (ts : TimeSeries) (t d u : Int) (h : wfTS ts) :
    samples (recordSample ts t d u) = samples ts ++ [(t, d, u)] := by
  obtain ⟨h1, h2⟩ := h
  have hDU : ts.download_speeds.length = ts.upload_speeds.length := h1.symm.trans h2
  have hTZ : ts.timestamps.length = (ts.download_speeds.zip ts.upload_speeds).length := by
    rw [List.length_zip, ← h1, ← h2, min_self]
  show (ts.timestamps ++ [t]).zip ((ts.download_speeds ++ [d]).zip (ts.upload_speeds ++ [u]))
      = ts.timestamps.zip (ts.download_speeds.zip ts.upload_speeds) ++ [(t, d, u)]
  rw [List.zip_append hDU, List.zip_append hTZ]
  rfl

theorem validIndices_all (xs : List Int) (c : Int) (h : ∀ t ∈ xs, c ≤ t) :
    validIndices xs c = List.range xs.length := by
  unfold validIndices
  apply List.filter_eq_self.mpr
  intro i hi
  have hlt := List.mem_range.mp hi
  rw [List.getD_eq_getElem xs 0 hlt]
  simpa using h _ (List.getElem_mem hlt)

theorem rebuildAt_range (xs : List Int) : rebuildAt xs (List.range xs.length) = xs := by
  induction xs with
  | nil => rfl
  | cons x xs ih =>
    unfold rebuildAt at ih ⊢
    rw [List.length_cons, List.range_succ_eq_map, List.map_cons, List.map_map]
    have hcomp : ((fun i => (x :: xs).getD i 0) ∘ Nat.succ) = fun i => xs.getD i 0 := by
      funext i
      simp [Function.comp]
    rw [hcomp, ih]
    simp

theorem evict_of_all_in_window (E : TimeSeries) (now : Int) (hwf : wfTS E)
    (hall : ∀ t ∈ E.timestamps, now - horizon ≤ t) : evict E now = E := by
  obtain ⟨h1, h2⟩ := hwf
  have hV := validIndices_all E.timestamps (now - horizon) hall
  cases E with
  | mk T D U =>
    simp only at h1 h2 hV
    simp only [evict, hV, TimeSeries.mk.injEq]
    refine ⟨rebuildAt_range T, ?_, ?_⟩
    · rw [h1]
      exact rebuildAt_range D
    · rw [h2]
      exact rebuildAt_range U

theorem getTS_setTS_self (m : List (String × TimeSeries)) (k : String) (v : TimeSeries) :
    getTS (setTS m k v) k = some v := by
  induction m with
  | nil => simp [setTS, getTS]
  | cons p m ih =>
    by_cases h : p.1 = k
    · simp [setTS, h, getTS]
    · simp [setTS, h, getTS, ih]

theorem getTS_setTS_other (m : List (String × TimeSeries)) (k k' : String)
    (v : TimeSeries) (h : k' ≠ k) : getTS (setTS m k v) k' = getTS m k' := by
  induction m with
  | nil => simp [setTS, getTS, Ne.symm h]
  | cons p m ih =>
    by_cases hp : p.1 = k
    · simp [setTS, hp, getTS, Ne.symm h]
    · simp only [setTS, hp, if_false, getTS, ih]

theorem getTS_recordKey_self (m : List (String × TimeSeries)) (name : String)
    (t d u : Int) :
    getTS (recordKey m name t d u) name
      = some (recordSample ((getTS m name).getD emptyTS) t d u) := by
  unfold recordKey hasKey
  cases hm : getTS m name with
  | none => simp [hm, getTS_setTS_self]
  | some ts => simp [hm, getTS_setTS_self]

theorem getTS_recordKey_other (m : List (String × TimeSeries)) (name k : String)
    (t d u : Int) (h : k ≠ name) :
    getTS (recordKey m name t d u) k = getTS m k := by
  unfold recordKey hasKey
  cases hm : getTS m name with
  | none => simp [hm, getTS_setTS_other _ _ _ _ h]
  | some ts => simp [hm, getTS_setTS_other _ _ _ _ h]

theorem getTS_evictKey_self (m : List (String × TimeSeries)) (name : String)
    (now : Int) :
    getTS (evictKey m name now)
        name = some (evict ((getTS m name).getD emptyTS) now) := by
  unfold evictKey
  exact getTS_setTS_self m name _

theorem getTS_evictKey_other (m : List (String × TimeSeries)) (name k : String)
    (now : Int) (h : k ≠ name) : getTS (evictKey m name now) k = getTS m k := by
  unfold evictKey
  exact getTS_setTS_other m name k _ h

theorem getTS_deviceStep_self (m : List (String × TimeSeries)) (now : Int)
    (dev : Device) :
    getTS (deviceStep now m dev) dev.name
      = some (evict (recordSample ((getTS m dev.name).getD emptyTS)
          now dev.download dev.upload) now) := by
  unfold deviceStep
  rw [getTS_evictKey_self, getTS_recordKey_self]
  rfl

theorem getTS_deviceStep_other (m : List (String × TimeSeries)) (now : Int)
    (dev : Device) (k : String) (h : k ≠ dev.name) :
    getTS (deviceStep now m dev) k = getTS m k := by
  unfold deviceStep
  rw [getTS_evictKey_other _ _ _ _ h, getTS_recordKey_other _ _ _ _ _ _ h]

theorem getTS_tickDevices_notin (now : Int) (snap : List Device) :
    ∀ (m : List (String × TimeSeries)) (k : String),
      (∀ dev ∈ snap, k ≠ dev.name) →
      getTS (tickDevices m now snap) k = getTS m k := by
  induction snap with
  | nil => intro m k _; rfl
  | cons d snap ih =>
    intro m k h
    show getTS (tickDevices (deviceStep now m d) now snap) k = getTS m k
    rw [ih _ _ (fun dev hd => h dev (List.mem_cons_of_mem d hd))]
    exact getTS_deviceStep_other m now d k (h d (List.mem_cons_self d snap))

theorem getTS_runTicks_notin (steps : List (Int × List Device)) :
    ∀ (s : Store) (k : String),
      (∀ st ∈ steps, ∀ dev ∈ st.2, k ≠ dev.name) →
      getTS (runTicks s steps).device_traffic_history k
        = getTS s.device_traffic_history k := by
  induction steps with
  | nil => intro s k _; rfl
  | cons st steps ih =>
    intro s k h
    show getTS (runTicks (tick s st.1 st.2) steps).device_traffic_history k = _
    rw [ih _ _ (fun st' hst' => h st' (List.mem_cons_of_mem st hst'))]
    exact getTS_tickDevices_notin st.1 st.2 _ k (h st (List.mem_cons_self st steps))

theorem wfDict_deviceStep (m : List (String × TimeSeries)) (now : Int) (dev : Device)
    (h : wfDict m) : wfDict (deviceStep now m dev) := by
  intro k ts hk
  by_cases hkd : k = dev.name
  · subst hkd
    rw [getTS_deviceStep_self] at hk
    injection hk with hk
    subst hk
    exact wfTS_evict _ _
  · rw [getTS_deviceStep_other _ _ _ _ hkd] at hk
    exact h k ts hk

theorem wfDict_tickDevices (now : Int) (snap : List Device) :
    ∀ m, wfDict m → wfDict (tickDevices m now snap) := by
  induction snap with
  | nil => intro m h; exact h
  | cons d snap ih =>
    intro m h
    exact ih (deviceStep now m d) (wfDict_deviceStep m now d h)

theorem wfStore_tick (s : Store) (now : Int) (snap : List Device) (h : wfStore s) :
    wfStore (tick s now snap) :=
  ⟨wfDict_tickDevices now snap _ h.1, wfTS_evict _ _⟩

theorem wfStore_runTicks (steps : List (Int × List Device)) :
    ∀ s, wfStore s → wfStore (runTicks s steps) := by
  induction steps with
  | nil => intro s h; exact h
  | cons st steps ih =>
    intro s h
    exact ih (tick s st.1 st.2) (wfStore_tick s st.1 st.2 h)

theorem wfStore_initial : wfStore initialStore := by
  constructor
  · intro k ts h
    simp [initialStore, getTS] at h
  · exact ⟨rfl, rfl⟩

/-- Every timestamp of the series is at most `b`. -/
def boundedBy (b : Int) (ts : TimeSeries) : Prop :=
  ∀ t ∈ ts.timestamps, t ≤ b

/-- The timestamps of the series are non-decreasing. -/
def chronological (ts : TimeSeries) : Prop :=
  ts.timestamps.Chain' (· ≤ ·)

/-- All series in the session state have non-decreasing timestamps, all at
most `b` (the time of the last completed tick). -/
def clockOK (b : Int) (s : Store) : Prop :=
  (∀ name ts, getTS s.device_traffic_history name = some ts →
      boundedBy b ts ∧ chronological ts)
    ∧ boundedBy b s.traffic_history ∧ chronological s.traffic_history

theorem boundedBy_mono (b now : Int) (ts : TimeSeries) (h : boundedBy b ts)
    (hb : b ≤ now) : boundedBy now ts :=
  fun t ht => (h t ht).trans hb

theorem filter_keep_now (T : List Int) (now : Int) :
    (T ++ [now]).filter (fun t => decide (now - horizon ≤ t))
      = T.filter (fun t => decide (now - horizon ≤ t)) ++ [now] := by
  rw [List.filter_append]
  have h0 : (0 : Int) ≤ horizon := by
    unfold horizon
    omega
  simp [List.filter_cons, h0]

theorem evict_record_timestamps (ts : TimeSeries) (now d u : Int) :
    (evict (recordSample ts now d u) now).timestamps
      = ts.timestamps.filter (fun t => decide (now - horizon ≤ t)) ++ [now] := by
  rw [evict_timestamps_eq]
  exact filter_keep_now ts.timestamps now

theorem evict_record_last (ts : TimeSeries) (now d u : Int) :
    (evict (recordSample ts now d u) now).timestamps.getLast? = some now := by
  rw [evict_record_timestamps]
  exact List.getLast?_concat _

theorem boundedBy_evict_record (ts : TimeSeries) (now d u : Int)
    (h : boundedBy now ts) :
    boundedBy now (evict (recordSample ts now d u) now) := by
  intro t ht
  rw [evict_record_timestamps] at ht
  rcases List.mem_append.mp ht with h1 | h2
  · exact h t (List.mem_of_mem_filter h1)
  · simp at h2
    omega

theorem chronological_evict_record (ts : TimeSeries) (now d u : Int)
    (hch : chronological ts) (hb : boundedBy now ts) :
    chronological (evict (recordSample ts now d u) now) := by
  unfold chronological at hch ⊢
  rw [evict_record_timestamps]
  apply List.chain'_append.mpr
  refine ⟨hch.sublist (List.filter_sublist _), List.chain'_singleton _, ?_⟩
  intro x hx y hy
  simp at hy
  subst hy
  exact hb x (List.mem_of_mem_filter (List.mem_of_mem_getLast? hx))

theorem clock_emptyTS (now : Int) : boundedBy now emptyTS ∧ chronological emptyTS := by
  constructor
  · intro t ht
    simp [emptyTS] at ht
  · exact List.chain'_nil

/-- `dictClock now m`: every series in the per-device dict is
chronological with all timestamps at most `now`. -/
def dictClock (now : Int) (m : List (String × TimeSeries)) : Prop :=
  ∀ name ts, getTS m name = some ts → boundedBy now ts ∧ chronological ts

theorem dictClock_getD (m : List (String × TimeSeries)) (now : Int) (name : String)
    (h : dictClock now m) :
    boundedBy now ((getTS m name).getD emptyTS)
      ∧ chronological ((getTS m name).getD emptyTS) := by
  cases hm : getTS m name with
  | none => simpa using clock_emptyTS now
  | some ts => simpa using h name ts hm

theorem dictClock_deviceStep (m : List (String × TimeSeries)) (now : Int)
    (dev : Device) (h : dictClock now m) : dictClock now (deviceStep now m dev) := by
  intro k ts hk
  by_cases hkd : k = dev.name
  · subst hkd
    rw [getTS_deviceStep_self] at hk
    injection hk with hk
    subst hk
    obtain ⟨hb, hc⟩ := dictClock_getD m now dev.name h
    exact ⟨boundedBy_evict_record _ _ _ _ hb, chronological_evict_record _ _ _ _ hc hb⟩
  · rw [getTS_deviceStep_other _ _ _ _ hkd] at hk
    exact h k ts hk

theorem dictClock_tickDevices (now : Int) (snap : List Device) :
    ∀ m, dictClock now m → dictClock now (tickDevices m now snap) := by
  induction snap with
  | nil => intro m h; exact h
  | cons d snap ih =>
    intro m h
    exact ih (deviceStep now m d) (dictClock_deviceStep m now d h)

theorem lastNow_deviceStep (m : List (String × TimeSeries)) (now : Int)
    (dev : Device) (k : String) (ts : TimeSeries) (h : getTS m k = some ts)
    (hl : ts.timestamps.getLast? = some now) :
    ∃ ts', getTS (deviceStep now m dev) k = some ts'
      ∧ ts'.timestamps.getLast? = some now := by
  by_cases hkd : k = dev.name
  · subst hkd
    exact ⟨_, getTS_deviceStep_self m now dev, evict_record_last _ _ _ _⟩
  · refine ⟨ts, ?_, hl⟩
    rw [getTS_deviceStep_other _ _ _ _ hkd]
    exact h

theorem lastNow_tickDevices (now : Int) (snap : List Device) :
    ∀ (m : List (String × TimeSeries)) (k : String) (ts : TimeSeries),
      getTS m k = some ts → ts.timestamps.getLast? = some now →
      ∃ ts', getTS (tickDevices m now snap) k = some ts'
        ∧ ts'.timestamps.getLast? = some now := by
  induction snap with
  | nil => intro m k ts h hl; exact ⟨ts, h, hl⟩
  | cons d snap ih =>
    intro m k ts h hl
    obtain ⟨ts', h', hl'⟩ := lastNow_deviceStep m now d k ts h hl
    exact ih (deviceStep now m d) k ts' h' hl'

theorem snapLast_tickDevices (now : Int) (snap : List Device) :
    ∀ m, ∀ dev ∈ snap,
      ∃ ts, getTS (tickDevices m now snap) dev.name = some ts
        ∧ ts.timestamps.getLast? = some now := by
  induction snap with
  | nil =>
    intro m dev hd
    exact absurd hd (List.not_mem_nil dev)
  | cons d snap ih =>
    intro m dev hdev
    rcases List.mem_cons.mp hdev with heq | hmem
    · subst heq
      exact lastNow_tickDevices now snap (deviceStep now m dev) dev.name _
        (getTS_deviceStep_self m now dev) (evict_record_last _ _ _ _)
    · exact ih (deviceStep now m d) dev hmem

/-- Entity A of the aggregate scenario: rates (5, 10). -/
def devA : Device := ⟨"A", 5, 10⟩

/-- Entity B of the aggregate scenario: rates (3, 7). -/
def devB : Device := ⟨"B", 3, 7⟩

/-- Entity C of the aggregate scenario: rates (2, 2). -/
def devC : Device := ⟨"C", 2, 2⟩

/-- Aggregate scenario, tick 1 at time 0: A and B report. -/
def tick1Store : Store := tick initialStore 0 [devA, devB]

/-- Aggregate scenario, tick 2 at time 1: B drops out, C appears. -/
def tick2Store : Store := tick tick1Store 1 [devA, devC]

/-- The 45-tick scenario: one device, samples one minute apart at times
0, 1, …, 44. -/
def scenarioSteps : List (Int × List Device) :=
  (List.range 45).map (fun k => ((k : Int), [⟨"A", 5, 3⟩]))

/-- The device's series after the 45th record+evict of the scenario. -/
def scenarioTS : TimeSeries :=
  (getTS (runTicks initialStore scenarioSteps).device_traffic_history "A").getD emptyTS

end RollingWindow

namespace RollingWindow

set_option maxRecDepth 8000

/-- Claim C1: starting from the initial session state, after any sequence
of ticks every device key's three parallel lists have equal lengths, and
so do the aggregate key's three lists. -/
theorem claim_C1_parallel_lengths (steps : List (Int × List Device)) (name : String)
    (ts : TimeSeries)
    (h : getTS (runTicks initialStore steps).device_traffic_history name = some ts) :
    (ts.timestamps.length = ts.download_speeds.length ∧
        ts.timestamps.length = ts.upload_speeds.length) ∧
      ((runTicks initialStore steps).traffic_history.timestamps.length
          = (runTicks initialStore steps).traffic_history.download_speeds.length ∧
        (runTicks initialStore steps).traffic_history.timestamps.length
          = (runTicks initialStore steps).traffic_history.upload_speeds.length) := by
  have hw := wfStore_runTicks steps initialStore wfStore_initial
  exact ⟨hw.1 name ts h, hw.2⟩

/-- Witness for C1: one tick recording device A at time 0. -/
theorem claim_C1_witness :
    (((⟨[0], [5], [10]⟩ : TimeSeries).timestamps.length
        = (⟨[0], [5], [10]⟩ : TimeSeries).download_speeds.length ∧
      (⟨[0], [5], [10]⟩ : TimeSeries).timestamps.length
        = (⟨[0], [5], [10]⟩ : TimeSeries).upload_speeds.length) ∧
     ((runTicks initialStore [((0 : Int), [devA])]).traffic_history.timestamps.length
        = (runTicks initialStore [((0 : Int), [devA])]).traffic_history.download_speeds.length ∧
      (runTicks initialStore [((0 : Int), [devA])]).traffic_history.timestamps.length
        = (runTicks initialStore [((0 : Int), [devA])]).traffic_history.upload_speeds.length)) :=
  claim_C1_parallel_lengths [((0 : Int), [devA])] "A" ⟨[0], [5], [10]⟩ (by decide)

/-- Claim C2: immediately after an eviction pass at time `now` with the
fixed 30-minute horizon, every remaining timestamp `t` satisfies
`now - horizon ≤ t`. -/
theorem claim_C2_window_invariant (ts : TimeSeries) (now : Int) :
    ∀ t ∈ (evict ts now).timestamps, now - horizon ≤ t := by
  intro t ht
  rw [evict_timestamps_eq] at ht
  simpa using (List.mem_filter.mp ht).2

/-- Witness for C2: evicting `⟨[5],[1],[2]⟩` at time 10 keeps 5, which is
within the window. -/
theorem claim_C2_witness : (10 : Int) - horizon ≤ 5 :=
  claim_C2_window_invariant ⟨[5], [1], [2]⟩ 10 5 (by decide)

/-- Claim C3 is refuted: after 45 samples one minute apart (times 0…44)
and the final eviction at time 44 with horizon 30, the series does NOT
hold 30 samples — the boundary sample at time 14 is kept as well. -/
theorem claim_C3_counterexample : ¬ scenarioTS.timestamps.length = 30 := by
  decide

/-- Claim C3 (amended): the series holds exactly 31 samples, with
timestamps t0+14 … t0+44 (the `>=` comparison keeps the sample aged
exactly 30 minutes). -/
theorem claim_C3_amended :
    scenarioTS.timestamps.length = 31 ∧
      scenarioTS.timestamps = (List.range 31).map (fun i => 14 + (i : Int)) := by
  decide

/-- Claim C4: eviction keeps exactly the samples whose timestamp is at
least `now - horizon` (so a sample aged exactly the horizon survives),
in their original relative order — stated as: the surviving sample list is
the filter of the original sample list. -/
theorem claim_C4_evict_exact (ts : TimeSeries) (now : Int) (h : wfTS ts) :
    samples (evict ts now)
        = (samples ts).filter (fun q => decide (now - horizon ≤ q.1))
      ∧ ∀ q ∈ samples ts, q.1 = now - horizon → q ∈ samples (evict ts now) := by
  refine ⟨samples_evict_eq ts now h, ?_⟩
  intro q hq hq1
  rw [samples_evict_eq ts now h]
  exact List.mem_filter.mpr ⟨hq, by simp [hq1]⟩

/-- Witness for C4: a three-sample series evicted at time 5; the sample
at the exact boundary −25 = 5 − 30 survives. -/
theorem claim_C4_witness :
    (samples (evict ⟨[-25, 0, 5], [1, 2, 3], [4, 5, 6]⟩ 5)
        = (samples (⟨[-25, 0, 5], [1, 2, 3], [4, 5, 6]⟩ : TimeSeries)).filter
            (fun q => decide ((5 : Int) - horizon ≤ q.1))
      ∧ ∀ q ∈ samples (⟨[-25, 0, 5], [1, 2, 3], [4, 5, 6]⟩ : TimeSeries),
          q.1 = (5 : Int) - horizon →
          q ∈ samples (evict ⟨[-25, 0, 5], [1, 2, 3], [4, 5, 6]⟩ 5)) :=
  claim_C4_evict_exact ⟨[-25, 0, 5], [1, 2, 3], [4, 5, 6]⟩ 5 ⟨rfl, rfl⟩

/-- Claim C5: each tick appends to the aggregate key exactly one sample
whose values are the sums over that tick's snapshot only, and the
two-tick scenario: A (5,10) and B (3,7) give (8,17); then A (5,10) and
C (2,2), without B, give (7,12), while B's own series keeps its tick-1
sample. -/
theorem claim_C5_aggregate (s : Store) (now : Int) (snap : List Device)
    (h : wfTS s.traffic_history) :
    samples (tick s now snap).traffic_history
        = (samples s.traffic_history).filter (fun q => decide (now - horizon ≤ q.1))
          ++ [(now, sumDownload snap, sumUpload snap)]
      ∧ samples tick1Store.traffic_history = [(0, 8, 17)]
      ∧ samples tick2Store.traffic_history = [(0, 8, 17), (1, 7, 12)]
      ∧ getTS tick2Store.device_traffic_history "B" = some ⟨[0], [3], [7]⟩ := by
  refine ⟨?_, by decide, by decide, by decide⟩
  show samples (evict (recordSample s.traffic_history now
      (sumDownload snap) (sumUpload snap)) now) = _
  rw [samples_evict_eq _ _ (wfTS_record _ _ _ _ h), samples_record_eq _ _ _ _ h,
    List.filter_append]
  have h0 : (0 : Int) ≤ horizon := by
    unfold horizon
    omega
  simp [List.filter_cons, h0]

/-- Witness for C5: the first scenario tick, applied to the initial
store. -/
theorem claim_C5_witness :
    (samples (tick initialStore 0 [devA, devB]).traffic_history
        = (samples initialStore.traffic_history).filter
            (fun q => decide ((0 : Int) - horizon ≤ q.1))
          ++ [((0 : Int), sumDownload [devA, devB], sumUpload [devA, devB])]
      ∧ samples tick1Store.traffic_history = [(0, 8, 17)]
      ∧ samples tick2Store.traffic_history = [(0, 8, 17), (1, 7, 12)]
      ∧ getTS tick2Store.device_traffic_history "B" = some ⟨[0], [3], [7]⟩) :=
  claim_C5_aggregate initialStore 0 [devA, devB] ⟨rfl, rfl⟩

/-- Claim C6 is refuted: after one tick, key "X" has never been seen, yet
the chart source is the (non-empty) aggregate series rather than three
empty sequences, and the placeholder is not chosen. -/
theorem claim_C6_counterexample :
    getTS tick1Store.device_traffic_history "X" = none
      ∧ readKey tick1Store "X" ≠ emptyTS
      ∧ showsPlaceholder tick1Store "X" = false := by
  decide

/-- Claim C6 (amended): reading a never-seen key raises no error but falls
back to the aggregate series (which is empty only in the initial store);
the placeholder is chosen exactly when the selected series has no
timestamps. -/
theorem claim_C6_amended (s : Store) (k : String)
    (h : getTS s.device_traffic_history k = none) :
    readKey s k = s.traffic_history
      ∧ (showsPlaceholder s k = true ↔ s.traffic_history.timestamps.length = 0)
      ∧ readKey initialStore k = emptyTS := by
  have hkey : hasKey s.device_traffic_history k = false := by
    unfold hasKey
    rw [h]
    rfl
  have hc : ¬ (k ≠ "All Devices" ∧ hasKey s.device_traffic_history k = true) := by
    intro hc
    rw [hkey] at hc
    exact absurd hc.2 (by decide)
  have hread : readKey s k = s.traffic_history := by
    unfold readKey
    rw [if_neg hc]
  have hc0 : ¬ (k ≠ "All Devices" ∧ hasKey initialStore.device_traffic_history k = true) := by
    intro hc0
    exact absurd hc0.2 Bool.false_ne_true
  refine ⟨hread, ?_, ?_⟩
  · simp [showsPlaceholder, hread]
  · unfold readKey
    rw [if_neg hc0]
    rfl

/-- Witness for C6 (amended): the store after tick 1 and the unseen
key "X". -/
theorem claim_C6_witness :
    (readKey tick1Store "X" = tick1Store.traffic_history
      ∧ (showsPlaceholder tick1Store "X" = true
          ↔ tick1Store.traffic_history.timestamps.length = 0)
      ∧ readKey initialStore "X" = emptyTS) :=
  claim_C6_amended tick1Store "X" (by decide)

/-- Claim C7: a tick evicts (indeed, touches) only the keys it writes in
that tick: any key absent from the snapshot keeps its three sequences
unchanged, over one tick and over any run of ticks that never mention
it. -/
theorem claim_C7_untouched_keys (s : Store) (now : Int) (snap : List Device)
    (steps : List (Int × List Device)) (k : String)
    (h1 : ∀ dev ∈ snap, k ≠ dev.name)
    (h2 : ∀ st ∈ steps, ∀ dev ∈ st.2, k ≠ dev.name) :
    getTS (tick s now snap).device_traffic_history k = getTS s.device_traffic_history k
      ∧ getTS (runTicks s steps).device_traffic_history k
          = getTS s.device_traffic_history k :=
  ⟨getTS_tickDevices_notin now snap _ k h1, getTS_runTicks_notin steps s k h2⟩

/-- Witness for C7: device "A"'s series survives untouched through ticks
that only mention device C. -/
theorem claim_C7_witness :
    (getTS (tick tick1Store 2 [devC]).device_traffic_history "A"
        = getTS tick1Store.device_traffic_history "A"
      ∧ getTS (runTicks tick1Store
            [((2 : Int), [devC]), ((3 : Int), [devC])]).device_traffic_history "A"
          = getTS tick1Store.device_traffic_history "A") :=
  claim_C7_untouched_keys tick1Store 2 [devC]
    [((2 : Int), [devC]), ((3 : Int), [devC])] "A" (by decide) (by decide)

/-- Claim C8: the eviction pass is idempotent — running it twice with the
same `now` (and the fixed 30-minute horizon) equals running it once. -/
theorem claim_C8_evict_idempotent (ts : TimeSeries) (now : Int) :
    evict (evict ts now) now = evict ts now := by
  apply evict_of_all_in_window _ now (wfTS_evict ts now)
  intro t ht
  rw [evict_timestamps_eq] at ht
  simpa using (List.mem_filter.mp ht).2

/-- Claim C9: recording under an unseen key first installs the empty
series and then appends the triple, mutating no other key's series. -/
theorem claim_C9_record_unseen (m : List (String × TimeSeries)) (name : String)
    (t d u : Int) (h : getTS m name = none) :
    getTS (recordKey m name t d u) name = some (recordSample emptyTS t d u)
      ∧ ∀ k, k ≠ name → getTS (recordKey m name t d u) k = getTS m k := by
  constructor
  · rw [getTS_recordKey_self, h]
    rfl
  · intro k hk
    exact getTS_recordKey_other m name k t d u hk

/-- Witness for C9: recording unseen key "A" in a dict holding only "B". -/
theorem claim_C9_witness :
    getTS (recordKey [("B", (⟨[0], [3], [7]⟩ : TimeSeries))] "A" 1 2 3) "A"
        = some (recordSample emptyTS 1 2 3)
      ∧ getTS (recordKey [("B", (⟨[0], [3], [7]⟩ : TimeSeries))] "A" 1 2 3) "B"
          = getTS [("B", (⟨[0], [3], [7]⟩ : TimeSeries))] "B" :=
  ⟨(claim_C9_record_unseen [("B", ⟨[0], [3], [7]⟩)] "A" 1 2 3 (by decide)).1,
    (claim_C9_record_unseen [("B", ⟨[0], [3], [7]⟩)] "A" 1 2 3 (by decide)).2 "B"
      (by decide)⟩

/-- Claim C10: every sample appended during a tick (each snapshot device
and the aggregate) carries the tick's single captured timestamp `now`,
and when the clock is non-decreasing all series stay chronological with
timestamps bounded by `now`. -/
theorem claim_C10_tick_timestamps (s : Store) (b now : Int) (snap : List Device)
    (h : clockOK b s) (hb : b ≤ now) :
    clockOK now (tick s now snap)
      ∧ (∀ dev ∈ snap, ∃ ts,
            getTS (tick s now snap).device_traffic_history dev.name = some ts
              ∧ ts.timestamps.getLast? = some now)
      ∧ (tick s now snap).traffic_history.timestamps.getLast? = some now := by
  obtain ⟨hd, hagg_b, hagg_c⟩ := h
  have hd' : dictClock now s.device_traffic_history := by
    intro nm ts hts
    obtain ⟨hbd, hch⟩ := hd nm ts hts
    exact ⟨boundedBy_mono b now ts hbd hb, hch⟩
  refine ⟨⟨?_, ?_, ?_⟩, ?_, ?_⟩
  · exact dictClock_tickDevices now snap _ hd'
  · exact boundedBy_evict_record _ _ _ _ (boundedBy_mono b now _ hagg_b hb)
  · exact chronological_evict_record _ _ _ _ hagg_c (boundedBy_mono b now _ hagg_b hb)
  · exact snapLast_tickDevices now snap _
  · exact evict_record_last _ _ _ _

/-- Witness for C10: the first tick from the initial store, recording
device A at time 0. -/
theorem claim_C10_witness :
    (∃ ts, getTS (tick initialStore 0 [devA]).device_traffic_history devA.name = some ts
        ∧ ts.timestamps.getLast? = some 0)
      ∧ (tick initialStore 0 [devA]).traffic_history.timestamps.getLast? = some 0 := by
  have hclock : clockOK 0 initialStore := by
    refine ⟨?_, ?_, ?_⟩
    · intro nm ts hts
      simp [initialStore, getTS] at hts
    · intro t ht
      simp [initialStore, emptyTS] at ht
    · exact List.chain'_nil
  have happ := claim_C10_tick_timestamps initialStore 0 0 [devA] hclock (le_refl 0)
  exact ⟨happ.2.1 devA (by decide), happ.2.2⟩

end RollingWindow
